import Mathlib

/-!
Verification of the Police Smart Analytics backend (src/main.py, src/schemas.py)
against its natural-language specification.

The incident documents fetched from the external store are JSON-like mappings
whose fields may be missing.  We embed a document as a structure of optional
JSON values (`Val`): `none` means the key is absent from the mapping, while
`some Val.vnull` means the key is present and bound to JSON null (Python
`None`).  Python numbers are embedded as rationals.
-/

namespace PoliceAnalytics

/-- A JSON-like field value as stored in a document. -/
inductive Val
  | vnull
  | vbool (b : Bool)
  | vnum (q : ℚ)
  | vstr (s : String)
deriving DecidableEq, Repr

open Val

/-- Embedding of Python `float(s)` on strings: optional sign, digits, and an
optional fractional part (the forms the service ever stores).  Returns `none`
when the string cannot be interpreted as a number (Python raises
`ValueError`). -/
def parseDecimal (s : String) : Option ℚ :=
  let chars := s.toList
  let core : List Char → Option ℚ := fun cs =>
    match cs.span Char.isDigit with
    | (intPart, rest) =>
      match rest with
      | [] =>
        if intPart.isEmpty then none
        else some ((intPart.foldl (fun acc c => acc * 10 + (c.toNat - 48)) 0 : ℕ) : ℚ)
      | '.' :: fracPart =>
        if fracPart.all Char.isDigit ∧ ¬ (intPart.isEmpty ∧ fracPart.isEmpty) then
          some (((intPart.foldl (fun acc c => acc * 10 + (c.toNat - 48)) 0 : ℕ) : ℚ)
            + ((fracPart.foldl (fun acc c => acc * 10 + (c.toNat - 48)) 0 : ℕ) : ℚ)
              / ((10 : ℚ) ^ fracPart.length))
        else none
      | _ => none
  match chars with
  | '-' :: rest => (core rest).map (fun q => -q)
  | '+' :: rest => core rest
  | _ => core chars

/-- Embedding of Python `float(v)` on a JSON value: numbers pass through,
booleans convert to 0/1, numeric strings are parsed, everything else raises
(`none`). -/
def pyFloat : Val → Option ℚ
  | vnull => none
  | vbool b => some (if b then 1 else 0)
  | vnum q => some q
  | vstr s => parseDecimal s

/-- Banker's rounding (round half to even) of a rational to an integer:
the rounding mode of Python's built-in `round`. -/
def roundHalfEven (q : ℚ) : ℤ :=
  let f := ⌊q⌋
  if q - f < 1/2 then f
  else if 1/2 < q - f then f + 1
  else if f % 2 = 0 then f else f + 1

/-- Embedding of Python `round(x, 2)`. -/
def round2 (q : ℚ) : ℚ := (roundHalfEven (q * 100) : ℚ) / 100

/-- Embedding of Python `round(x, 6)`. -/
def round6 (q : ℚ) : ℚ := (roundHalfEven (q * 1000000) : ℚ) / 1000000

/-- An incident document as fetched from the store: each field is `none` when
the key is absent and `some v` when the key is present with JSON value `v`.
Only the keys consulted by `analytics_summary` and `list_incidents` are
carried. -/
structure Doc where
  type : Option Val := none
  severity : Option Val := none
  status : Option Val := none
  response_minutes : Option Val := none
  reported_at : Option Val := none
deriving DecidableEq, Repr

/-- Insertion-ordered counting dictionary, embedding the Python dict updates
`m[k] = m.get(k, 0) + 1` of `analytics_summary`. -/
def bump (m : List (Val × ℕ)) (k : Val) : List (Val × ℕ) :=
  match m with
  | [] => [(k, 1)]
  | (j, c) :: rest => if j = k then (j, c + 1) :: rest else (j, c) :: bump rest k

/-- The summary object returned by `analytics_summary` (src/main.py lines
135-141). -/
structure Summary where
  total : ℕ
  open_cases : ℕ
  avg_response_minutes : Option ℚ
  by_type : List (Val × ℕ)
  by_severity : List (Val × ℕ)
deriving DecidableEq, Repr

/-- Membership test `d.get("status") in {"reported", "dispatched", "on_scene"}`
(src/main.py line 126). -/
def isOpenStatus (v : Val) : Bool :=
  v = vstr "reported" || v = vstr "dispatched" || v = vstr "on_scene"

/-- Loop state of the aggregation loop in `analytics_summary`. -/
structure AggState where
  by_type : List (Val × ℕ)
  by_severity : List (Val × ℕ)
  open_cases : ℕ
  response_sum : ℚ
  response_count : ℕ
deriving DecidableEq, Repr

/-- One iteration of the `for d in docs` loop of `analytics_summary`
(src/main.py lines 121-130).  `Except.error ()` embeds the exception raised
by `float(d["response_minutes"])` when the value cannot be converted. -/
def aggStep (st : AggState) (d : Doc) : Except Unit AggState :=
  let t := d.type.getD (vstr "other")
  let bt := bump st.by_type t
  let s := d.severity.getD (vstr "medium")
  let bs := bump st.by_severity s
  let oc := if isOpenStatus (d.status.getD vnull) then st.open_cases + 1 else st.open_cases
  match d.response_minutes with
  | none => Except.ok ⟨bt, bs, oc, st.response_sum, st.response_count⟩
  | some vnull => Except.ok ⟨bt, bs, oc, st.response_sum, st.response_count⟩
  | some v =>
    match pyFloat v with
    | none => Except.error ()
    | some q => Except.ok ⟨bt, bs, oc, st.response_sum + q, st.response_count + 1⟩

/-- Embedding of `analytics_summary` (src/main.py lines 113-141) as a function
of the fetched document list.  `Except.error ()` is the exception path that the
endpoint converts to HTTP 500. -/
def analytics_summary (docs : List Doc) : Except Unit Summary :=
  (docs.foldlM aggStep ⟨[], [], 0, 0, 0⟩).map fun st =>
    { total := docs.length
      open_cases := st.open_cases
      avg_response_minutes :=
        if st.response_count ≠ 0 then some (round2 (st.response_sum / st.response_count))
        else none
      by_type := st.by_type
      by_severity := st.by_severity }

/-- An HTTP response of the summary endpoint: either the JSON summary or the
HTTP 500 produced by the `except` handler (src/main.py lines 142-143). -/
inductive SummaryResp
  | ok (s : Summary)
  | internalError
deriving DecidableEq, Repr

/-- The `/analytics/summary` endpoint applied to the fetched documents. -/
def analyticsEndpoint (docs : List Doc) : SummaryResp :=
  match analytics_summary docs with
  | Except.ok s => SummaryResp.ok s
  | Except.error _ => SummaryResp.internalError

/-- The effective `by_type` key of a document: `d.get("type", "other")`. -/
def tkey (d : Doc) : Val := d.type.getD (vstr "other")

/-- The effective `by_severity` key of a document: `d.get("severity", "medium")`. -/
def skey (d : Doc) : Val := d.severity.getD (vstr "medium")

/-- Whether the document is counted in `open`. -/
def openB (d : Doc) : Bool := isOpenStatus (d.status.getD vnull)

/-- Whether a `response_minutes` value makes `float` raise: key present, value
not null, and not convertible to a number. -/
def badRespVal : Option Val → Bool
  | none => false
  | some vnull => false
  | some v => (pyFloat v).isNone

/-- Whether the document's `response_minutes` makes `float` raise. -/
def badResp (d : Doc) : Bool := badRespVal d.response_minutes

/-- The numeric content of a `response_minutes` value, if any. -/
def respValOf : Option Val → Option ℚ
  | none => none
  | some vnull => none
  | some v => pyFloat v

/-- The numeric `response_minutes` the document supplies, if any. -/
def respVal (d : Doc) : Option ℚ := respValOf d.response_minutes

/-- Sum of the counts of a counting dictionary. -/
def sumCounts : List (Val × ℕ) → ℕ
  | [] => 0
  | (_, c) :: rest => c + sumCounts rest

/-- The count stored under key `k` (0 when the key is absent). -/
def lookupCount (m : List (Val × ℕ)) (k : Val) : ℕ :=
  match m with
  | [] => 0
  | (j, c) :: rest => if j = k then c else lookupCount rest k

lemma sumCounts_bump (m : List (Val × ℕ)) (k : Val) :
    sumCounts (bump m k) = sumCounts m + 1 := by
  induction m with
  | nil => rfl
  | cons p rest ih =>
    obtain ⟨j, c⟩ := p
    by_cases h : j = k
    · simp only [bump, if_pos h, sumCounts]
      omega
    · simp only [bump, if_neg h, sumCounts, ih]
      omega

lemma lookupCount_bump (m : List (Val × ℕ)) (k j : Val) :
    lookupCount (bump m k) j = lookupCount m j + (if k = j then 1 else 0) := by
  induction m with
  | nil =>
    by_cases h : k = j <;> simp [bump, lookupCount, h]
  | cons p rest ih =>
    obtain ⟨i, c⟩ := p
    by_cases hik : i = k
    · simp only [bump, if_pos hik, lookupCount]
      by_cases hij : i = j
      · simp [hij, hik.symm.trans hij]
      · have hkj : ¬ k = j := fun hh => hij (hik.trans hh)
        simp [hij, hkj]
    · simp only [bump, if_neg hik, lookupCount]
      by_cases hij : i = j
      · have hkj : ¬ k = j := fun hh => hik (hij.trans hh.symm)
        simp [hij, hkj]
      · simp [hij, ih]

/-- On a document whose `response_minutes` converts (or is missing/null), the
loop body succeeds and its effect is described componentwise. -/
lemma aggStep_ok (st : AggState) (d : Doc) (h : badResp d = false) :
    aggStep st d = Except.ok
      ⟨bump st.by_type (tkey d), bump st.by_severity (skey d),
       st.open_cases + (if openB d then 1 else 0),
       st.response_sum + (respVal d).getD 0,
       st.response_count + (if (respVal d).isSome then 1 else 0)⟩ := by
  rcases hr : d.response_minutes with _ | v
  · by_cases ho : isOpenStatus (d.status.getD vnull) <;>
      simp [aggStep, hr, respVal, respValOf, tkey, skey, openB, ho]
  · rcases v with _ | b | q | s
    · by_cases ho : isOpenStatus (d.status.getD vnull) <;>
        simp [aggStep, hr, respVal, respValOf, tkey, skey, openB, ho]
    · by_cases ho : isOpenStatus (d.status.getD vnull) <;>
        simp [aggStep, hr, respVal, respValOf, tkey, skey, openB, ho, pyFloat]
    · by_cases ho : isOpenStatus (d.status.getD vnull) <;>
        simp [aggStep, hr, respVal, respValOf, tkey, skey, openB, ho, pyFloat]
    · rcases hp : parseDecimal s with _ | q'
      · exfalso
        rw [badResp, hr] at h
        simp [badRespVal, pyFloat, hp] at h
      · by_cases ho : isOpenStatus (d.status.getD vnull) <;>
          simp [aggStep, hr, respVal, respValOf, tkey, skey, openB, ho, pyFloat, hp]

/-- On a document whose `response_minutes` cannot be converted, the loop body
raises. -/
lemma aggStep_err (st : AggState) (d : Doc) (h : badResp d = true) :
    aggStep st d = Except.error () := by
  rcases hr : d.response_minutes with _ | v
  · rw [badResp, hr] at h
    simp [badRespVal] at h
  · rcases v with _ | b | q | s
    · rw [badResp, hr] at h
      simp [badRespVal] at h
    · rw [badResp, hr] at h
      simp [badRespVal, pyFloat] at h
    · rw [badResp, hr] at h
      simp [badRespVal, pyFloat] at h
    · rcases hp : parseDecimal s with _ | q'
      · simp [aggStep, hr, pyFloat, hp]
      · exfalso
        rw [badResp, hr] at h
        simp [badRespVal, pyFloat, hp] at h

/-- Closed form of the aggregation loop when every document's
`response_minutes` converts. -/
lemma aggFold_ok (docs : List Doc) (st : AggState)
    (h : ∀ d ∈ docs, badResp d = false) :
    docs.foldlM aggStep st = Except.ok
      ⟨docs.foldl (fun m d => bump m (tkey d)) st.by_type,
       docs.foldl (fun m d => bump m (skey d)) st.by_severity,
       st.open_cases + docs.countP openB,
       st.response_sum + (docs.filterMap respVal).sum,
       st.response_count + (docs.filterMap respVal).length⟩ := by
  induction docs generalizing st with
  | nil =>
    simp
    rfl
  | cons d rest ih =>
    have hd : badResp d = false := h d (List.mem_cons_self d rest)
    have hrest : ∀ x ∈ rest, badResp x = false := fun x hx => h x (List.mem_cons_of_mem d hx)
    rw [List.foldlM_cons, aggStep_ok st d hd]
    rw [show (Except.ok
        (⟨bump st.by_type (tkey d), bump st.by_severity (skey d),
          st.open_cases + (if openB d then 1 else 0),
          st.response_sum + (respVal d).getD 0,
          st.response_count + (if (respVal d).isSome then 1 else 0)⟩ : AggState) >>=
        rest.foldlM aggStep) = rest.foldlM aggStep
        ⟨bump st.by_type (tkey d), bump st.by_severity (skey d),
          st.open_cases + (if openB d then 1 else 0),
          st.response_sum + (respVal d).getD 0,
          st.response_count + (if (respVal d).isSome then 1 else 0)⟩ from rfl]
    rw [ih _ hrest]
    simp only [List.foldl_cons, List.countP_cons, List.filterMap_cons, Except.ok.injEq]
    rcases hv : respVal d with _ | q <;> by_cases ho : openB d <;>
      simp [hv, ho, add_assoc, add_comm, add_left_comm]

/-- The aggregation loop raises as soon as some document's `response_minutes`
cannot be converted. -/
lemma aggFold_err (docs : List Doc) (st : AggState)
    (h : ∃ d ∈ docs, badResp d = true) :
    docs.foldlM aggStep st = Except.error () := by
  induction docs generalizing st with
  | nil => simp at h
  | cons d rest ih =>
    rcases hd : badResp d with _ | _
    · have hrest : ∃ x ∈ rest, badResp x = true := by
        rcases h with ⟨x, hx, hbx⟩
        rcases List.mem_cons.mp hx with rfl | hx'
        · rw [hd] at hbx; exact absurd hbx (by simp)
        · exact ⟨x, hx', hbx⟩
      rw [List.foldlM_cons, aggStep_ok st d hd]
      exact ih _ hrest
    · rw [List.foldlM_cons, aggStep_err st d hd]
      rfl

/-- Closed form of `analytics_summary` on inputs where every
`response_minutes` converts. -/
lemma analytics_summary_ok (docs : List Doc)
    (h : ∀ d ∈ docs, badResp d = false) :
    analytics_summary docs = Except.ok
      { total := docs.length
        open_cases := docs.countP openB
        avg_response_minutes :=
          if (docs.filterMap respVal).length ≠ 0 then
            some (round2 ((docs.filterMap respVal).sum / (docs.filterMap respVal).length))
          else none
        by_type := docs.foldl (fun m d => bump m (tkey d)) []
        by_severity := docs.foldl (fun m d => bump m (skey d)) [] } := by
  unfold analytics_summary
  rw [aggFold_ok docs _ h]
  simp [Except.map]

/-- `analytics_summary` raises exactly when some document's
`response_minutes` cannot be converted. -/
lemma analytics_summary_err (docs : List Doc)
    (h : ∃ d ∈ docs, badResp d = true) :
    analytics_summary docs = Except.error () := by
  unfold analytics_summary
  rw [aggFold_err docs _ h]
  rfl

/-- A successful run implies no document had a bad `response_minutes`, and
pins down the summary. -/
lemma analytics_summary_ok_inv (docs : List Doc) (s : Summary)
    (h : analytics_summary docs = Except.ok s) :
    (∀ d ∈ docs, badResp d = false) ∧
      analytics_summary docs = Except.ok
        { total := docs.length
          open_cases := docs.countP openB
          avg_response_minutes :=
            if (docs.filterMap respVal).length ≠ 0 then
              some (round2 ((docs.filterMap respVal).sum / (docs.filterMap respVal).length))
            else none
          by_type := docs.foldl (fun m d => bump m (tkey d)) []
          by_severity := docs.foldl (fun m d => bump m (skey d)) [] } := by
  by_cases hb : ∀ d ∈ docs, badResp d = false
  · exact ⟨hb, analytics_summary_ok docs hb⟩
  · exfalso
    have : ∃ d ∈ docs, badResp d = true := by
      push_neg at hb
      rcases hb with ⟨d, hd, hbd⟩
      exact ⟨d, hd, by revert hbd; cases badResp d <;> simp⟩
    rw [analytics_summary_err docs this] at h
    exact absurd h (by simp)

lemma sumCounts_foldl (f : Doc → Val) (docs : List Doc) (m0 : List (Val × ℕ)) :
    sumCounts (docs.foldl (fun m d => bump m (f d)) m0) = sumCounts m0 + docs.length := by
  induction docs generalizing m0 with
  | nil => simp
  | cons d rest ih =>
    rw [List.foldl_cons, ih (bump m0 (f d)), sumCounts_bump]
    simp
    omega

lemma lookupCount_foldl (f : Doc → Val) (docs : List Doc) (m0 : List (Val × ℕ)) (k : Val) :
    lookupCount (docs.foldl (fun m d => bump m (f d)) m0) k =
      lookupCount m0 k + docs.countP (fun d => f d = k) := by
  induction docs generalizing m0 with
  | nil => simp
  | cons d rest ih =>
    rw [List.foldl_cons, ih (bump m0 (f d)), lookupCount_bump, List.countP_cons]
    by_cases hk : f d = k <;> simp [hk] <;> omega

/-- The open-case predicate exactly as the specification words it: `status` is
present and equal to one of the three open strings. -/
def claimOpen (d : Doc) : Bool :=
  d.status = some (vstr "reported") || d.status = some (vstr "dispatched") ||
    d.status = some (vstr "on_scene")

lemma openB_eq_claimOpen (d : Doc) : openB d = claimOpen d := by
  rcases hs : d.status with _ | v
  · simp [openB, claimOpen, isOpenStatus, hs]
  · rcases v with _ | b | q | s <;> simp [openB, claimOpen, isOpenStatus, hs]

section SampleDocs

/-- A fully populated incident document. -/
def docTheft : Doc :=
  ⟨some (vstr "theft"), some (vstr "high"), some (vstr "dispatched"),
   some (vnum 10), some (vstr "2024-01-02T10:00:00")⟩

/-- A closed incident. -/
def docClosed : Doc :=
  ⟨some (vstr "burglary"), some (vstr "low"), some (vstr "closed"),
   some (vnum 15), some (vstr "2024-01-01T10:00:00")⟩

/-- A document whose `type` and `severity` keys are present with null values. -/
def docNullType : Doc := ⟨some vnull, some vnull, none, none, some vnull⟩

/-- A document with every key absent. -/
def docEmpty : Doc := ⟨none, none, none, none, none⟩

/-- A document whose `response_minutes` cannot be converted to a number. -/
def docBad : Doc := ⟨none, none, none, some (vstr "abc"), none⟩

/-- A document supplying only `response_minutes = 10`. -/
def docResp10 : Doc := ⟨none, none, none, some (vnum 10), none⟩

/-- A document supplying only `response_minutes = 15`. -/
def docResp15 : Doc := ⟨none, none, none, some (vnum 15), none⟩

/-- A document supplying only `response_minutes = 20`. -/
def docResp20 : Doc := ⟨none, none, none, some (vnum 20), none⟩

end SampleDocs

/-- Claim C1: for every input list of incident records, the returned `total`
equals the length of the list, and the counts in `by_type` and in
`by_severity` each sum to `total`. -/
theorem agg_totals (docs : List Doc) (s : Summary)
    (h : analytics_summary docs = Except.ok s) :
    s.total = docs.length ∧ sumCounts s.by_type = s.total ∧
      sumCounts s.by_severity = s.total := by
  obtain ⟨hb, heq⟩ := analytics_summary_ok_inv docs s h
  rw [h] at heq
  obtain rfl := Except.ok.inj heq
  refine ⟨rfl, ?_, ?_⟩ <;> simp [sumCounts_foldl, sumCounts]

/-- Witness for C1 on a concrete two-document input. -/
theorem agg_totals_witness :
    (⟨2, 1, some 10, [(vstr "theft", 1), (vstr "other", 1)],
        [(vstr "high", 1), (vstr "medium", 1)]⟩ : Summary).total =
      [docTheft, docEmpty].length ∧
    sumCounts (⟨2, 1, some 10, [(vstr "theft", 1), (vstr "other", 1)],
        [(vstr "high", 1), (vstr "medium", 1)]⟩ : Summary).by_type =
      (⟨2, 1, some 10, [(vstr "theft", 1), (vstr "other", 1)],
        [(vstr "high", 1), (vstr "medium", 1)]⟩ : Summary).total ∧
    sumCounts (⟨2, 1, some 10, [(vstr "theft", 1), (vstr "other", 1)],
        [(vstr "high", 1), (vstr "medium", 1)]⟩ : Summary).by_severity =
      (⟨2, 1, some 10, [(vstr "theft", 1), (vstr "other", 1)],
        [(vstr "high", 1), (vstr "medium", 1)]⟩ : Summary).total := by
  refine agg_totals [docTheft, docEmpty] _ ?_
  rw [analytics_summary_ok _ (by decide)]
  norm_num [docTheft, docEmpty, tkey, skey, openB, isOpenStatus,
    respVal, respValOf, pyFloat, bump, round2, roundHalfEven,
    List.filterMap_cons, List.countP_cons, List.countP_nil]
  decide

/-- Claim C2: `open` counts exactly the records whose `status` is present and
equal (case-sensitively) to one of "reported", "dispatched", "on_scene"; a
record with missing `status`, or with `status = "closed"`, is not counted,
while `status = "dispatched"` always is — all of which `claimOpen` states
literally. -/
theorem open_count_spec (docs : List Doc) (s : Summary)
    (h : analytics_summary docs = Except.ok s) :
    s.open_cases = docs.countP claimOpen := by
  obtain ⟨hb, heq⟩ := analytics_summary_ok_inv docs s h
  rw [h] at heq
  obtain rfl := Except.ok.inj heq
  exact List.countP_congr fun d _ => by rw [openB_eq_claimOpen]

/-- Witness for C2: a dispatched record is counted, a closed one and a
status-less one are not. -/
theorem open_count_spec_witness :
    (analytics_summary [docTheft, docClosed, docEmpty] = Except.ok
        ⟨3, 1, some (25/2 : ℚ),
         [(vstr "theft", 1), (vstr "burglary", 1), (vstr "other", 1)],
         [(vstr "high", 1), (vstr "low", 1), (vstr "medium", 1)]⟩) ∧
      (⟨3, 1, some (25/2 : ℚ),
         [(vstr "theft", 1), (vstr "burglary", 1), (vstr "other", 1)],
         [(vstr "high", 1), (vstr "low", 1), (vstr "medium", 1)]⟩ : Summary).open_cases =
        [docTheft, docClosed, docEmpty].countP claimOpen := by
  have h : analytics_summary [docTheft, docClosed, docEmpty] = Except.ok
      ⟨3, 1, some (25/2 : ℚ),
       [(vstr "theft", 1), (vstr "burglary", 1), (vstr "other", 1)],
       [(vstr "high", 1), (vstr "low", 1), (vstr "medium", 1)]⟩ := by
    rw [analytics_summary_ok _ (by decide)]
    norm_num [docTheft, docClosed, docEmpty, tkey, skey, openB, isOpenStatus,
      respVal, respValOf, pyFloat, bump, round2, roundHalfEven,
      List.filterMap_cons, List.countP_cons, List.countP_nil]
    decide
  exact ⟨h, open_count_spec [docTheft, docClosed, docEmpty] _ h⟩

/-- Claim C3: `avg_response_minutes` is null exactly when no record supplies a
numeric `response_minutes`; otherwise it is the arithmetic mean of the supplied
values rounded to 2 decimal places (half-to-even, as Python `round`), and in
particular response minutes [10, 15, 20] give 15 and [10, 15] give 12.5.  The
JSON value is always produced as a float (the running sum starts at `0.0`), so
"15.00 (not 15)" is the rational 15 serialized as a float. -/
theorem avg_response_spec :
    (∀ docs s, analytics_summary docs = Except.ok s →
      ((s.avg_response_minutes = none ↔ ∀ d ∈ docs, respVal d = none) ∧
        s.avg_response_minutes =
          (if (docs.filterMap respVal).length = 0 then none
           else some (round2 ((docs.filterMap respVal).sum /
             ((docs.filterMap respVal).length : ℚ)))))) ∧
    analytics_summary [docResp10, docResp15, docResp20] =
      Except.ok ⟨3, 0, some 15, [(vstr "other", 3)], [(vstr "medium", 3)]⟩ ∧
    analytics_summary [docResp10, docResp15] =
      Except.ok ⟨2, 0, some (25/2 : ℚ), [(vstr "other", 2)], [(vstr "medium", 2)]⟩ := by
  refine ⟨?_, ?_, ?_⟩
  · intro docs s h
    obtain ⟨hb, heq⟩ := analytics_summary_ok_inv docs s h
    rw [h] at heq
    obtain rfl := Except.ok.inj heq
    have hiff : (docs.filterMap respVal).length = 0 ↔ ∀ d ∈ docs, respVal d = none := by
      rw [List.length_eq_zero, List.filterMap_eq_nil_iff]
    refine ⟨?_, ?_⟩
    · by_cases hz : (docs.filterMap respVal).length = 0
      · rw [if_neg (by simp [hz])]
        exact ⟨fun _ => hiff.mp hz, fun _ => rfl⟩
      · rw [if_pos hz]
        exact ⟨fun hc => (Option.some_ne_none _ hc).elim,
               fun hall => (hz (hiff.mpr hall)).elim⟩
    · by_cases hz : (docs.filterMap respVal).length = 0
      · rw [if_neg (by simp [hz]), if_pos hz]
      · rw [if_pos hz, if_neg hz]
  · rw [analytics_summary_ok _ (by decide)]
    norm_num [docResp10, docResp15, docResp20, tkey, skey, openB, isOpenStatus,
      respVal, respValOf, pyFloat, bump, round2, roundHalfEven,
      List.filterMap_cons, List.countP_cons, List.countP_nil]
    decide
  · rw [analytics_summary_ok _ (by decide)]
    norm_num [docResp10, docResp15, tkey, skey, openB, isOpenStatus,
      respVal, respValOf, pyFloat, bump, round2, roundHalfEven,
      List.filterMap_cons, List.countP_cons, List.countP_nil]
    decide

/-- Witness for C3: the general clause of `avg_response_spec` applied to the
concrete three-record input, with its hypothesis discharged by the concrete
clause. -/
theorem avg_response_spec_witness :
    ((⟨3, 0, some 15, [(vstr "other", 3)], [(vstr "medium", 3)]⟩ : Summary).avg_response_minutes
        = none ↔ ∀ d ∈ [docResp10, docResp15, docResp20], respVal d = none) ∧
    (⟨3, 0, some 15, [(vstr "other", 3)], [(vstr "medium", 3)]⟩ : Summary).avg_response_minutes =
      (if ([docResp10, docResp15, docResp20].filterMap respVal).length = 0 then none
       else some (round2 (([docResp10, docResp15, docResp20].filterMap respVal).sum /
         (([docResp10, docResp15, docResp20].filterMap respVal).length : ℚ)))) :=
  avg_response_spec.1 [docResp10, docResp15, docResp20] _ avg_response_spec.2.1

/-- Claim C6: a `response_minutes` value that cannot be interpreted as a number
makes the whole aggregation fail — the endpoint answers HTTP 500 and no summary
is produced — while records whose other fields are malformed or missing never
make it fail. -/
theorem response_conversion_error_spec (docs : List Doc) :
    ((∃ d ∈ docs, badResp d = true) →
        analyticsEndpoint docs = SummaryResp.internalError ∧
          ∀ s, analytics_summary docs ≠ Except.ok s) ∧
    ((∀ d ∈ docs, badResp d = false) →
        ∃ s, analytics_summary docs = Except.ok s) := by
  constructor
  · intro hbad
    have herr := analytics_summary_err docs hbad
    refine ⟨?_, ?_⟩
    · simp [analyticsEndpoint, herr]
    · intro s hs
      rw [herr] at hs
      exact absurd hs (by simp)
  · intro hgood
    exact ⟨_, analytics_summary_ok docs hgood⟩

/-- Witness for C6: one record with `response_minutes = "abc"` makes the
endpoint answer 500, while a record with null `type`/`severity` and every
other key absent aggregates fine. -/
theorem response_conversion_error_spec_witness :
    (analyticsEndpoint [docBad] = SummaryResp.internalError ∧
       ∀ s, analytics_summary [docBad] ≠ Except.ok s) ∧
    (∃ s, analytics_summary [docNullType] = Except.ok s) :=
  ⟨(response_conversion_error_spec [docBad]).1 ⟨docBad, by simp, by decide⟩,
   (response_conversion_error_spec [docNullType]).2 (by decide)⟩

/-- Claim C7: the empty record sequence yields total 0, open 0, null average,
and empty `by_type` and `by_severity` mappings. -/
theorem empty_records_spec : analytics_summary [] = Except.ok ⟨0, 0, none, [], []⟩ := rfl

/-- Claim C10: a record whose `type` (resp. `severity`) key holds null is
counted under the key null; the default labels "other" / "medium" apply
exactly to records where the key is absent (or already carries the default
string). -/
theorem null_key_counting_spec (docs : List Doc) (s : Summary)
    (h : analytics_summary docs = Except.ok s) :
    lookupCount s.by_type vnull = docs.countP (fun d => d.type = some vnull) ∧
    lookupCount s.by_type (vstr "other") =
      docs.countP (fun d => d.type = none || d.type = some (vstr "other")) ∧
    lookupCount s.by_severity vnull = docs.countP (fun d => d.severity = some vnull) ∧
    lookupCount s.by_severity (vstr "medium") =
      docs.countP (fun d => d.severity = none || d.severity = some (vstr "medium")) := by
  obtain ⟨hb, heq⟩ := analytics_summary_ok_inv docs s h
  rw [h] at heq
  obtain rfl := Except.ok.inj heq
  refine ⟨?_, ?_, ?_, ?_⟩ <;>
    simp only [lookupCount_foldl, lookupCount, zero_add] <;>
    refine List.countP_congr fun d _ => ?_
  · rcases ht : d.type with _ | v <;> simp [tkey, ht]
  · rcases ht : d.type with _ | v <;> simp [tkey, ht]
  · rcases hs : d.severity with _ | v <;> simp [skey, hs]
  · rcases hs : d.severity with _ | v <;> simp [skey, hs]

/-- Witness for C10 on a concrete input containing a null-typed record, a
fully labelled record, and an empty record. -/
theorem null_key_counting_spec_witness :
    lookupCount (⟨3, 1, some 10, [(vnull, 1), (vstr "theft", 1), (vstr "other", 1)],
        [(vnull, 1), (vstr "high", 1), (vstr "medium", 1)]⟩ : Summary).by_type vnull =
      [docNullType, docTheft, docEmpty].countP (fun d => d.type = some vnull) ∧
    lookupCount (⟨3, 1, some 10, [(vnull, 1), (vstr "theft", 1), (vstr "other", 1)],
        [(vnull, 1), (vstr "high", 1), (vstr "medium", 1)]⟩ : Summary).by_type (vstr "other") =
      [docNullType, docTheft, docEmpty].countP
        (fun d => d.type = none || d.type = some (vstr "other")) ∧
    lookupCount (⟨3, 1, some 10, [(vnull, 1), (vstr "theft", 1), (vstr "other", 1)],
        [(vnull, 1), (vstr "high", 1), (vstr "medium", 1)]⟩ : Summary).by_severity vnull =
      [docNullType, docTheft, docEmpty].countP (fun d => d.severity = some vnull) ∧
    lookupCount (⟨3, 1, some 10, [(vnull, 1), (vstr "theft", 1), (vstr "other", 1)],
        [(vnull, 1), (vstr "high", 1), (vstr "medium", 1)]⟩ : Summary).by_severity (vstr "medium") =
      [docNullType, docTheft, docEmpty].countP
        (fun d => d.severity = none || d.severity = some (vstr "medium")) := by
  refine null_key_counting_spec [docNullType, docTheft, docEmpty] _ ?_
  rw [analytics_summary_ok _ (by decide)]
  norm_num [docNullType, docTheft, docEmpty, tkey, skey, openB, isOpenStatus,
    respVal, respValOf, pyFloat, bump, round2, roundHalfEven,
    List.filterMap_cons, List.countP_cons, List.countP_nil]
  decide

/-! ### Incident listing (src/main.py lines 76-98)

`list_incidents` sorts the fetched documents with
`docs.sort(key=lambda x: x.get("reported_at", ""), reverse=True)`.
Python's sort is stable, compares keys with `<`, and `reverse=True` yields the
stable descending order; it raises `TypeError` as soon as two keys of
incomparable types (e.g. `None` and a string) are compared, and with at least
two elements every element's key takes part in some comparison.  We embed the
sort as a stable descending insertion sort in the `Except` monad: on lists
whose keys are all strings it computes the same (unique) stable descending
order, and it raises exactly when a comparison involving an incomparable key
pair occurs. -/

/-- The sort key `x.get("reported_at", "")`: the empty string only when the
key is entirely absent; a present null value stays `vnull`. -/
def sortKey (d : Doc) : Val := d.reported_at.getD (vstr "")

/-- Python `a < b` on JSON values: strings lexicographically, numbers (and
booleans, which are ints) numerically; any other pairing — in particular
anything against null — raises `TypeError`. -/
def pyLt : Val → Val → Except Unit Bool
  | vstr a, vstr b => Except.ok (decide (a < b))
  | vnum a, vnum b => Except.ok (decide (a < b))
  | vnum a, vbool b => Except.ok (decide (a < (if b then (1:ℚ) else 0)))
  | vbool a, vnum b => Except.ok (decide ((if a then (1:ℚ) else 0) < b))
  | vbool a, vbool b => Except.ok (decide ((if a then (1:ℚ) else 0) < (if b then (1:ℚ) else 0)))
  | _, _ => Except.error ()

/-- Stable descending insertion of `d` into an already-sorted list: `d` is
placed before the first element whose key is strictly below `d`'s key, hence
after every earlier element with an equal key. -/
def insertDesc (d : Doc) : List Doc → Except Unit (List Doc)
  | [] => Except.ok [d]
  | x :: xs =>
    (pyLt (sortKey x) (sortKey d)).bind fun b =>
      if b then Except.ok (d :: x :: xs)
      else (insertDesc d xs).map fun r => x :: r

/-- The embedded `docs.sort(key=..., reverse=True)`. -/
def pySortDesc (docs : List Doc) : Except Unit (List Doc) :=
  docs.foldlM (fun acc d => insertDesc d acc) []

/-- An HTTP response of the listing endpoint: the sorted items, or the
HTTP 500 produced by the `except` handler (src/main.py lines 97-98). -/
inductive ListResp
  | items (l : List Doc)
  | internalError
deriving DecidableEq, Repr

/-- The `/incidents` listing endpoint applied to the fetched documents. -/
def list_incidents (docs : List Doc) : ListResp :=
  match pySortDesc docs with
  | Except.ok l => ListResp.items l
  | Except.error _ => ListResp.internalError

/-- Whether a value is a JSON string. -/
def isStrVal : Val → Bool
  | vstr _ => true
  | _ => false

/-- Whether the document's sort key is a string (i.e. `reported_at` is absent
or holds a string). -/
def strKeyed (d : Doc) : Bool := isStrVal (sortKey d)

/-- The document's sort key as a string (junk `""` on non-string keys). -/
def keyStr (d : Doc) : String :=
  match sortKey d with
  | vstr s => s
  | _ => ""

/-- Pure stable descending insertion, the all-string-keys behaviour of
`insertDesc`. -/
def insertP (d : Doc) : List Doc → List Doc
  | [] => [d]
  | x :: xs => if keyStr x < keyStr d then d :: x :: xs else x :: insertP d xs

/-- Pure stable descending insertion sort. -/
def sortP (docs : List Doc) : List Doc :=
  docs.foldl (fun acc d => insertP d acc) []

lemma sortKey_of_strKeyed (d : Doc) (h : strKeyed d = true) :
    sortKey d = vstr (keyStr d) := by
  rcases hk : sortKey d with _ | b | q | s <;>
    simp [strKeyed, isStrVal, hk] at h ⊢ <;> simp [keyStr, hk]

lemma insertDesc_eq_insertP (d : Doc) (l : List Doc)
    (hd : strKeyed d = true) (hl : ∀ x ∈ l, strKeyed x = true) :
    insertDesc d l = Except.ok (insertP d l) := by
  induction l with
  | nil => rfl
  | cons x xs ih =>
    have hx := hl x (List.mem_cons_self x xs)
    have hxs : ∀ y ∈ xs, strKeyed y = true := fun y hy => hl y (List.mem_cons_of_mem x hy)
    rw [insertDesc, sortKey_of_strKeyed x hx, sortKey_of_strKeyed d hd]
    by_cases hlt : keyStr x < keyStr d
    · simp [pyLt, hlt, insertP, Except.bind]
    · simp [pyLt, hlt, insertP, ih hxs, Except.bind, Except.map]

lemma pySortDesc_go_eq (docs : List Doc) (acc : List Doc)
    (h : ∀ d ∈ docs, strKeyed d = true) (hacc : ∀ x ∈ acc, strKeyed x = true) :
    docs.foldlM (fun acc d => insertDesc d acc) acc =
      Except.ok (docs.foldl (fun acc d => insertP d acc) acc) := by
  induction docs generalizing acc with
  | nil => rfl
  | cons d rest ih =>
    have hd := h d (List.mem_cons_self d rest)
    have hrest : ∀ x ∈ rest, strKeyed x = true := fun x hx => h x (List.mem_cons_of_mem d hx)
    have hmem : ∀ y ∈ insertP d acc, strKeyed y = true := by
      intro y hy
      induction acc with
      | nil =>
        simp [insertP] at hy
        exact hy ▸ hd
      | cons x xs ihx =>
        rw [insertP] at hy
        by_cases hlt : keyStr x < keyStr d
        · rw [if_pos hlt] at hy
          rcases List.mem_cons.mp hy with rfl | hy'
          · exact hd
          · exact hacc y hy'
        · rw [if_neg hlt] at hy
          rcases List.mem_cons.mp hy with rfl | hy'
          · exact hacc y (List.mem_cons_self _ _)
          · exact ihx (fun z hz => hacc z (List.mem_cons_of_mem x hz)) hy'
    rw [List.foldlM_cons, insertDesc_eq_insertP d acc hd hacc]
    rw [show (Except.ok (insertP d acc) >>=
        rest.foldlM fun acc d => insertDesc d acc) =
        rest.foldlM (fun acc d => insertDesc d acc) (insertP d acc) from rfl]
    rw [ih _ hrest hmem, List.foldl_cons]

lemma pySortDesc_eq_sortP (docs : List Doc) (h : ∀ d ∈ docs, strKeyed d = true) :
    pySortDesc docs = Except.ok (sortP docs) :=
  pySortDesc_go_eq docs [] h (by simp)

/-- Descending key order: the left document's key is at least the right
document's key. -/
def descKey (a b : Doc) : Prop := keyStr b ≤ keyStr a

lemma mem_insertP (d y : Doc) (l : List Doc) :
    y ∈ insertP d l ↔ y = d ∨ y ∈ l := by
  induction l with
  | nil => simp [insertP]
  | cons x xs ih =>
    rw [insertP]
    by_cases hlt : keyStr x < keyStr d
    · rw [if_pos hlt]
      simp [List.mem_cons]
    · rw [if_neg hlt]
      simp only [List.mem_cons, ih]
      tauto

lemma insertP_perm (d : Doc) (l : List Doc) : (insertP d l).Perm (d :: l) := by
  induction l with
  | nil => simp [insertP]
  | cons x xs ih =>
    rw [insertP]
    by_cases hlt : keyStr x < keyStr d
    · rw [if_pos hlt]
    · rw [if_neg hlt]
      exact (ih.cons x).trans (List.Perm.swap d x xs)

lemma insertP_pairwise (d : Doc) (l : List Doc)
    (hl : l.Pairwise descKey) : (insertP d l).Pairwise descKey := by
  induction l with
  | nil => simp [insertP, descKey]
  | cons x xs ih =>
    rw [insertP]
    rcases List.pairwise_cons.mp hl with ⟨hx, hxs⟩
    by_cases hlt : keyStr x < keyStr d
    · rw [if_pos hlt]
      refine List.pairwise_cons.mpr ⟨?_, hl⟩
      intro y hy
      rcases List.mem_cons.mp hy with rfl | hy'
      · exact le_of_lt hlt
      · exact le_trans (hx y hy') (le_of_lt hlt)
    · rw [if_neg hlt]
      refine List.pairwise_cons.mpr ⟨?_, ih hxs⟩
      intro y hy
      rcases (mem_insertP d y xs).mp hy with rfl | hy'
      · exact not_lt.mp hlt
      · exact hx y hy'

lemma sortP_go_perm (docs acc : List Doc) :
    (docs.foldl (fun acc d => insertP d acc) acc).Perm (docs ++ acc) := by
  induction docs generalizing acc with
  | nil => simp
  | cons d rest ih =>
    rw [List.foldl_cons]
    exact (ih (insertP d acc)).trans
      ((List.Perm.append_left rest (insertP_perm d acc)).trans List.perm_middle)

lemma sortP_perm (docs : List Doc) : (sortP docs).Perm docs := by
  simpa using sortP_go_perm docs []

lemma sortP_go_pairwise (docs acc : List Doc) (hacc : acc.Pairwise descKey) :
    (docs.foldl (fun acc d => insertP d acc) acc).Pairwise descKey := by
  induction docs generalizing acc with
  | nil => exact hacc
  | cons d rest ih =>
    rw [List.foldl_cons]
    exact ih _ (insertP_pairwise d acc hacc)

lemma sortP_pairwise (docs : List Doc) : (sortP docs).Pairwise descKey :=
  sortP_go_pairwise docs [] (by simp)

lemma empty_string_le (s : String) : "" ≤ s := by
  rw [String.le_iff_toList_le]
  simp

/-- Claim C5: on record sets whose `reported_at` is a string or absent, the
listing returns the records sorted by `reported_at` descending under
lexicographic string comparison of the raw timestamps; a record lacking
`reported_at` sorts with key `""`, so nothing with a nonempty timestamp
follows it — it appears last. -/
theorem listing_sort_spec (docs : List Doc) (h : ∀ d ∈ docs, strKeyed d = true) :
    ∃ l, list_incidents docs = ListResp.items l ∧ l.Perm docs ∧
      l.Pairwise (fun a b => keyStr b ≤ keyStr a) ∧
      (∀ pre d post, l = pre ++ d :: post → d.reported_at = none →
        ∀ e ∈ post, keyStr e = "") := by
  refine ⟨sortP docs, ?_, sortP_perm docs, sortP_pairwise docs, ?_⟩
  · rw [list_incidents, pySortDesc_eq_sortP docs h]
  · intro pre d post hl hnone e he
    have hsub : (d :: post).Sublist (sortP docs) := by
      rw [hl]
      exact List.sublist_append_right pre (d :: post)
    have hp : (d :: post).Pairwise descKey := (sortP_pairwise docs).sublist hsub
    have hde : keyStr e ≤ keyStr d := (List.pairwise_cons.mp hp).1 e he
    have hdk : keyStr d = "" := by simp [keyStr, sortKey, hnone]
    rw [hdk] at hde
    exact le_antisymm hde (empty_string_le _)

/-- A record reported 2024-01-01. -/
def docRep01 : Doc := ⟨none, none, none, none, some (vstr "2024-01-01")⟩

/-- A record reported 2024-01-02. -/
def docRep02 : Doc := ⟨none, none, none, none, some (vstr "2024-01-02")⟩

/-- Witness for C5: the concrete three-record example of the specification,
with the sorted output computed explicitly. -/
theorem listing_sort_spec_witness :
    (∃ l, list_incidents [docRep02, docRep01, docEmpty] = ListResp.items l ∧
      l.Perm [docRep02, docRep01, docEmpty] ∧
      l.Pairwise (fun a b => keyStr b ≤ keyStr a) ∧
      (∀ pre d post, l = pre ++ d :: post → d.reported_at = none →
        ∀ e ∈ post, keyStr e = "")) ∧
    list_incidents [docRep02, docRep01, docEmpty] =
      ListResp.items [docRep02, docRep01, docEmpty] := by
  constructor
  · exact listing_sort_spec [docRep02, docRep01, docEmpty] (by decide)
  · have h1 : ¬ ("2024-01-02" : String) < "2024-01-01" := by
      rw [String.lt_iff_toList_lt]
      decide
    have h2 : ¬ ("2024-01-02" : String) < "" := by
      rw [String.lt_iff_toList_lt]
      decide
    have h3 : ¬ ("2024-01-01" : String) < "" := by
      rw [String.lt_iff_toList_lt]
      decide
    rw [list_incidents, pySortDesc_eq_sortP _ (by decide)]
    simp [sortP, insertP, keyStr, sortKey, docRep02, docRep01, docEmpty, h1, h2, h3]

/-! ### Listing failure on null timestamps (C9) -/

lemma pyLt_null_right (v : Val) : pyLt v vnull = Except.error () := by
  cases v <;> rfl

lemma pyLt_null_left (v : Val) : pyLt vnull v = Except.error () := by
  cases v <;> rfl

lemma insertDesc_null_self (d : Doc) (hd : sortKey d = vnull) (x : Doc) (xs : List Doc) :
    insertDesc d (x :: xs) = Except.error () := by
  rw [insertDesc, hd, pyLt_null_right]
  rfl

lemma insertDesc_null_head (d x : Doc) (hx : sortKey x = vnull) (xs : List Doc) :
    insertDesc d (x :: xs) = Except.error () := by
  rw [insertDesc, hx, pyLt_null_left]
  rfl

lemma insertDesc_length (d : Doc) (l r : List Doc)
    (h : insertDesc d l = Except.ok r) : r.length = l.length + 1 := by
  induction l generalizing r with
  | nil =>
    rw [insertDesc] at h
    obtain rfl := Except.ok.inj h
    rfl
  | cons x xs ih =>
    rw [insertDesc] at h
    rcases hp : pyLt (sortKey x) (sortKey d) with _ | b
    · rw [hp] at h
      exact absurd h (by simp [Except.bind])
    · rw [hp] at h
      cases b with
      | true =>
        simp only [Except.bind, if_pos rfl] at h
        obtain rfl := Except.ok.inj h
        rfl
      | false =>
        simp only [Except.bind, Bool.false_eq_true, if_neg] at h
        rcases hq : insertDesc d xs with _ | r'
        · rw [hq] at h
          exact absurd h (by simp [Except.map])
        · rw [hq] at h
          simp only [Except.map] at h
          obtain rfl := Except.ok.inj h
          simp [ih r' hq]


lemma except_ok_bind {α β : Type} (a : α) (f : α → Except Unit β) :
    (Except.ok a >>= f) = f a := rfl

lemma pyFold_len (docs : List Doc) (acc0 r : List Doc)
    (h : docs.foldlM (fun acc d => insertDesc d acc) acc0 = Except.ok r) :
    r.length = acc0.length + docs.length := by
  induction docs generalizing acc0 with
  | nil =>
    obtain rfl := Except.ok.inj h
    rfl
  | cons d rest ih =>
    rw [List.foldlM_cons] at h
    rcases hq : insertDesc d acc0 with _ | acc1
    · rw [hq] at h
      exact absurd h (by simp [Bind.bind, Except.bind])
    · rw [hq] at h
      rw [show (Except.ok acc1 >>= rest.foldlM fun acc d => insertDesc d acc) =
          rest.foldlM (fun acc d => insertDesc d acc) acc1 from rfl] at h
      have h1 := insertDesc_length d acc0 acc1 hq
      have h2 := ih acc1 h
      rw [h2, h1]
      simp
      omega

/-- Claim C9: if the fetched set holds one record whose `reported_at` is
present with a null value and another whose `reported_at` is a string, the
sort comparison raises and the listing endpoint answers HTTP 500; the
empty-string fallback is only for records lacking the key. -/
theorem null_timestamp_listing_error (docs : List Doc) (d1 d2 : Doc) (s : String)
    (h1 : d1 ∈ docs) (hn : d1.reported_at = some vnull)
    (h2 : d2 ∈ docs) (hs : d2.reported_at = some (vstr s)) :
    list_incidents docs = ListResp.internalError := by
  have hk1 : sortKey d1 = vnull := by simp [sortKey, hn]
  suffices herr : pySortDesc docs = Except.error () by rw [list_incidents, herr]
  obtain ⟨pre, post, rfl⟩ := List.append_of_mem h1
  rw [pySortDesc, List.foldlM_append]
  rcases hpre : pre.foldlM (fun acc d => insertDesc d acc) [] with u | acc
  · cases u
    rfl
  · have hlen : acc.length = pre.length := by simpa using pyFold_len pre [] acc hpre
    rw [except_ok_bind, List.foldlM_cons]
    rcases hacc : acc with _ | ⟨x, xs⟩
    · have hpre0 : pre = [] := by
        rw [hacc] at hlen
        exact List.length_eq_zero.mp hlen.symm
      subst hpre0
      have hd2 : d2 ∈ post := by
        rcases List.mem_cons.mp h2 with rfl | hmem
        · rw [hn] at hs
          exact absurd (Option.some.inj hs) (by simp)
        · exact hmem
      rw [show insertDesc d1 [] = Except.ok [d1] from rfl, except_ok_bind]
      obtain ⟨p1, p2, rfl⟩ := List.append_of_mem hd2
      rcases p1 with _ | ⟨y, p1x⟩
      · rw [List.nil_append, List.foldlM_cons, insertDesc_null_head d2 d1 hk1]
        rfl
      · rw [List.cons_append, List.foldlM_cons, insertDesc_null_head y d1 hk1]
        rfl
    · rw [insertDesc_null_self d1 hk1 x xs]
      rfl

/-- Witness for C9: a null-timestamped record next to a string-timestamped
one makes the listing fail. -/
theorem null_timestamp_listing_error_witness :
    list_incidents [docNullType, docTheft] = ListResp.internalError :=
  null_timestamp_listing_error [docNullType, docTheft] docNullType docTheft
    "2024-01-02T10:00:00" (List.mem_cons_self _ _) rfl
    (List.mem_cons_of_mem _ (List.mem_cons_self _ _)) rfl

/-! ### Incident schema validation (src/schemas.py lines 43-80) and creation
(src/main.py lines 67-73)

`Incident` is a pydantic model.  At creation the request body is validated:
a field that is absent takes its declared default; a `Literal[...]` field that
is present must hold exactly one of the enumerated strings, otherwise
validation FAILS (pydantic does not fall back to the default on an invalid
value); `Optional[str]` fields accept a string or null; `Optional[float]`
fields accept a number (or a numeric string, which pydantic coerces) within
the declared bounds, and null. -/

/-- The raw JSON body of `POST /incidents`: each field is absent (`none`) or
present with a JSON value. -/
structure IncidentPayload where
  incident_id : Option Val := none
  type : Option Val := none
  description : Option Val := none
  severity : Option Val := none
  status : Option Val := none
  latitude : Option Val := none
  longitude : Option Val := none
  occurred_at : Option Val := none
  reported_at : Option Val := none
  response_minutes : Option Val := none
  precinct : Option Val := none
  officer_id : Option Val := none
deriving DecidableEq, Repr

/-- A validated Incident record (src/schemas.py lines 43-80). -/
structure Incident where
  incident_id : Option String
  type : String
  description : Option String
  severity : String
  status : String
  latitude : Option ℚ
  longitude : Option ℚ
  occurred_at : Option String
  reported_at : Option String
  response_minutes : Option ℚ
  precinct : Option String
  officer_id : Option String
deriving DecidableEq, Repr

/-- The `type` enumeration of the schema (src/schemas.py lines 49-60). -/
def incidentTypes : List String :=
  ["theft", "assault", "burglary", "fraud", "vandalism", "traffic",
   "narcotics", "homicide", "disturbance", "other"]

/-- The `severity` enumeration (src/schemas.py lines 62-64). -/
def severityLevels : List String := ["low", "medium", "high", "critical"]

/-- The `status` enumeration (src/schemas.py lines 65-67). -/
def statusValues : List String :=
  ["reported", "dispatched", "on_scene", "resolved", "closed"]

/-- Validation of an `Optional[str]` field with default None. -/
def validateOptStr : Option Val → Except Unit (Option String)
  | none => Except.ok none
  | some vnull => Except.ok none
  | some (vstr s) => Except.ok (some s)
  | some _ => Except.error ()

/-- Validation of a `Literal[...]` field with a string default: absent means
the default; a present value must be exactly one of the allowed strings. -/
def validateLiteral (allowed : List String) (dflt : String) :
    Option Val → Except Unit String
  | none => Except.ok dflt
  | some (vstr s) => if s ∈ allowed then Except.ok s else Except.error ()
  | some _ => Except.error ()

/-- Pydantic lax conversion to float: numbers pass, numeric strings are
parsed; null and booleans are not valid floats here. -/
def pydFloat : Val → Option ℚ
  | vnum q => some q
  | vstr s => parseDecimal s
  | _ => none

/-- Validation of an `Optional[float]` field with a bound check. -/
def validateOptFloat (check : ℚ → Bool) : Option Val → Except Unit (Option ℚ)
  | none => Except.ok none
  | some vnull => Except.ok none
  | some v =>
    match pydFloat v with
    | none => Except.error ()
    | some q => if check q then Except.ok (some q) else Except.error ()

/-- Pydantic validation of the `Incident` model on a raw payload. -/
def validateIncident (p : IncidentPayload) : Except Unit Incident := do
  let iid ← validateOptStr p.incident_id
  let ty ← validateLiteral incidentTypes "other" p.type
  let desc ← validateOptStr p.description
  let sev ← validateLiteral severityLevels "medium" p.severity
  let st ← validateLiteral statusValues "reported" p.status
  let lat ← validateOptFloat (fun q => decide (-90 ≤ q ∧ q ≤ 90)) p.latitude
  let lon ← validateOptFloat (fun q => decide (-180 ≤ q ∧ q ≤ 180)) p.longitude
  let occ ← validateOptStr p.occurred_at
  let rep ← validateOptStr p.reported_at
  let resp ← validateOptFloat (fun q => decide (0 ≤ q)) p.response_minutes
  let prec ← validateOptStr p.precinct
  let off ← validateOptStr p.officer_id
  Except.ok ⟨iid, ty, desc, sev, st, lat, lon, occ, rep, resp, prec, off⟩

/-- A creation request whose `type` is the string "arson", which is not in the
enumeration. -/
def pArson : IncidentPayload := { type := some (vstr "arson") }

/-- A creation request with every field absent. -/
def pEmptyPayload : IncidentPayload := {}

lemma except_error_bind {α β : Type} (f : α → Except Unit β) :
    ((Except.error () : Except Unit α) >>= f) = Except.error () := rfl

/-- Counterexample to claim C4 as stated: a creation payload whose `type` is
the invalid string "arson" is REJECTED by validation — it is not assigned the
default "other". -/
theorem type_default_counterexample :
    validateIncident pArson = Except.error () := rfl

/-- Claim C4 amended: an absent `type` is defaulted to "other", but a present
`type` that is not a member of the enumeration (an invalid string, null, or a
non-string) makes validation fail — the record is rejected, not defaulted. -/
theorem type_default_spec :
    (∀ p : IncidentPayload, p.type = none →
       ∀ inc, validateIncident p = Except.ok inc → inc.type = "other") ∧
    (∀ p : IncidentPayload, ∀ v, p.type = some v →
       (∀ s, v = vstr s → s ∉ incidentTypes) →
       validateIncident p = Except.error ()) := by
  constructor
  · intro p hty inc h
    rw [validateIncident] at h
    rcases r1 : validateOptStr p.incident_id with u | iid
    · rw [r1] at h
      cases u
      rw [except_error_bind] at h
      simp at h
    rw [r1, except_ok_bind] at h
    rw [hty, show validateLiteral incidentTypes "other" none = Except.ok "other" from rfl,
      except_ok_bind] at h
    rcases r3 : validateOptStr p.description with u | desc
    · rw [r3] at h
      cases u
      rw [except_error_bind] at h
      simp at h
    rw [r3, except_ok_bind] at h
    rcases r4 : validateLiteral severityLevels "medium" p.severity with u | sev
    · rw [r4] at h
      cases u
      rw [except_error_bind] at h
      simp at h
    rw [r4, except_ok_bind] at h
    rcases r5 : validateLiteral statusValues "reported" p.status with u | st
    · rw [r5] at h
      cases u
      rw [except_error_bind] at h
      simp at h
    rw [r5, except_ok_bind] at h
    rcases r6 : validateOptFloat (fun q => decide (-90 ≤ q ∧ q ≤ 90)) p.latitude with u | lat
    · rw [r6] at h
      cases u
      rw [except_error_bind] at h
      simp at h
    rw [r6, except_ok_bind] at h
    rcases r7 : validateOptFloat (fun q => decide (-180 ≤ q ∧ q ≤ 180)) p.longitude with u | lon
    · rw [r7] at h
      cases u
      rw [except_error_bind] at h
      simp at h
    rw [r7, except_ok_bind] at h
    rcases r8 : validateOptStr p.occurred_at with u | occ
    · rw [r8] at h
      cases u
      rw [except_error_bind] at h
      simp at h
    rw [r8, except_ok_bind] at h
    rcases r9 : validateOptStr p.reported_at with u | rep
    · rw [r9] at h
      cases u
      rw [except_error_bind] at h
      simp at h
    rw [r9, except_ok_bind] at h
    rcases r10 : validateOptFloat (fun q => decide (0 ≤ q)) p.response_minutes with u | resp
    · rw [r10] at h
      cases u
      rw [except_error_bind] at h
      simp at h
    rw [r10, except_ok_bind] at h
    rcases r11 : validateOptStr p.precinct with u | prec
    · rw [r11] at h
      cases u
      rw [except_error_bind] at h
      simp at h
    rw [r11, except_ok_bind] at h
    rcases r12 : validateOptStr p.officer_id with u | off
    · rw [r12] at h
      cases u
      rw [except_error_bind] at h
      simp at h
    rw [r12, except_ok_bind] at h
    obtain rfl := (Except.ok.inj h).symm
    rfl
  · intro p v hv hns
    rw [validateIncident]
    rcases r1 : validateOptStr p.incident_id with u | iid
    · cases u
      rw [except_error_bind]
    · rw [except_ok_bind]
      have hL : validateLiteral incidentTypes "other" p.type = Except.error () := by
        rw [hv]
        rcases v with _ | b | q | s
        · rfl
        · rfl
        · rfl
        · have hna := hns s rfl
          simp [validateLiteral, hna]
      rw [hL, except_error_bind]

/-- Witness for the amended C4: an all-absent payload validates with type
"other", and the "arson" payload is rejected. -/
theorem type_default_spec_witness :
    ((⟨none, "other", none, "medium", "reported", none, none, none, none, none,
        none, none⟩ : Incident).type = "other") ∧
    validateIncident pArson = Except.error () :=
  ⟨type_default_spec.1 pEmptyPayload rfl _ rfl,
   type_default_spec.2 pArson (vstr "arson") rfl
     (fun s hs => by
        cases hs
        decide)⟩

/-! ### Demo data seeding (src/main.py lines 146-194)

`seed_incidents` draws random values and builds `n` Incident records.  Each
loop iteration's random draws are embedded as a `SeedDraw`; `ValidDraw` states
exactly the ranges guaranteed by `random.choice` / `random.choices` /
`random.randint` / `random.uniform` in the source.  The two `isoformat`
timestamp strings are carried in the draw, as the schema places no constraint
on them. -/

/-- The `types` list of the seeder (src/main.py lines 150-160; note it omits
"homicide"). -/
def seedTypes : List String :=
  ["theft", "assault", "burglary", "fraud", "vandalism", "traffic",
   "narcotics", "disturbance", "other"]

/-- The `severities` list (src/main.py line 161). -/
def seedSeverities : List String := ["low", "medium", "high", "critical"]

/-- The `statuses` list (src/main.py line 162). -/
def seedStatuses : List String :=
  ["reported", "dispatched", "on_scene", "resolved", "closed"]

/-- The `precincts` list (src/main.py line 163). -/
def seedPrecincts : List String := ["Central", "North", "South", "East", "West"]

/-- The random draws of one loop iteration of `seed_incidents`. -/
structure SeedDraw where
  typeChoice : String
  sevChoice : String
  statusChoice : String
  occurredIso : String
  reportedIso : String
  respMinutes : ℕ
  lat : ℚ
  lon : ℚ
  precinctChoice : String
  officerNum : ℕ
  incNum : ℕ

/-- The ranges the random generators guarantee (src/main.py lines 172-190):
choices come from the fixed lists, `randint(2, 60)` for response minutes,
`uniform` within the San Francisco bounding box, `randint(1000, 9999)` and
`randint(100000, 999999)` for the ids. -/
def ValidDraw (w : SeedDraw) : Prop :=
  w.typeChoice ∈ seedTypes ∧ w.sevChoice ∈ seedSeverities ∧
  w.statusChoice ∈ seedStatuses ∧
  2 ≤ w.respMinutes ∧ w.respMinutes ≤ 60 ∧
  (37.70 : ℚ) ≤ w.lat ∧ w.lat ≤ (37.82 : ℚ) ∧
  (-122.52 : ℚ) ≤ w.lon ∧ w.lon ≤ (-122.36 : ℚ) ∧
  1000 ≤ w.officerNum ∧ w.officerNum ≤ 9999 ∧
  100000 ≤ w.incNum ∧ w.incNum ≤ 999999

/-- The Incident built from one draw (src/main.py lines 178-191): latitude and
longitude are rounded to 6 decimals, `response_minutes` is None exactly when
the drawn status is "reported". -/
def mkSeedIncident (w : SeedDraw) : Incident :=
  ⟨some ("INC-" ++ toString w.incNum),
   w.typeChoice,
   some ("Random " ++ w.typeChoice ++ " incident"),
   w.sevChoice,
   w.statusChoice,
   some (round6 w.lat),
   some (round6 w.lon),
   some w.occurredIso,
   some w.reportedIso,
   (if w.statusChoice = "reported" then none else some (w.respMinutes : ℚ)),
   some w.precinctChoice,
   some (toString w.officerNum)⟩

/-- The seeding loop (src/main.py lines 169-194): the pair is the running
`created` counter and the records inserted so far; the endpoint responds
with the final counter. -/
def seed_incidents (n : ℕ) (draws : ℕ → SeedDraw) : ℕ × List Incident :=
  (List.range n).foldl
    (fun acc i => (acc.1 + 1, acc.2 ++ [mkSeedIncident (draws i)])) (0, [])

/-- The Incident field constraints of the data model (src/schemas.py lines
43-80, spec §3): enumeration membership for type/severity/status, latitude in
[-90, 90], longitude in [-180, 180], non-negative response minutes. -/
def ValidIncident (inc : Incident) : Prop :=
  inc.type ∈ incidentTypes ∧ inc.severity ∈ severityLevels ∧
  inc.status ∈ statusValues ∧
  (∀ q, inc.latitude = some q → -90 ≤ q ∧ q ≤ 90) ∧
  (∀ q, inc.longitude = some q → -180 ≤ q ∧ q ≤ 180) ∧
  (∀ q, inc.response_minutes = some q → 0 ≤ q)

lemma roundHalfEven_bounds (q : ℚ) :
    q - 1/2 ≤ (roundHalfEven q : ℚ) ∧ (roundHalfEven q : ℚ) ≤ q + 1/2 := by
  have h1 : (⌊q⌋ : ℚ) ≤ q := Int.floor_le q
  have h2 : q < ⌊q⌋ + 1 := Int.lt_floor_add_one q
  simp only [roundHalfEven]
  split_ifs with c1 c2 c3 <;> constructor <;> push_cast <;> linarith

lemma round6_close (q : ℚ) : q - 1 ≤ round6 q ∧ round6 q ≤ q + 1 := by
  obtain ⟨hl, hr⟩ := roundHalfEven_bounds (q * 1000000)
  rw [round6]
  constructor
  · rw [le_div_iff (by norm_num : (0:ℚ) < 1000000)]
    linarith
  · rw [div_le_iff (by norm_num : (0:ℚ) < 1000000)]
    linarith

lemma seed_fold (l : List ℕ) (draws : ℕ → SeedDraw) (c0 : ℕ) (acc0 : List Incident) :
    l.foldl (fun acc i => (acc.1 + 1, acc.2 ++ [mkSeedIncident (draws i)])) (c0, acc0) =
      (c0 + l.length, acc0 ++ l.map (fun i => mkSeedIncident (draws i))) := by
  induction l generalizing c0 acc0 with
  | nil => simp
  | cons i rest ih =>
    rw [List.foldl_cons, ih]
    simp [List.append_assoc]
    omega

/-- Claim C8: for n in [1, 500], the seeder creates exactly n records and
responds with created = n, and — whatever the random draws within their
guaranteed ranges — every generated record satisfies all Incident field
constraints. -/
theorem seed_incidents_spec (n : ℕ) (draws : ℕ → SeedDraw)
    (hn1 : 1 ≤ n) (hn2 : n ≤ 500)
    (hd : ∀ i, i < n → ValidDraw (draws i)) :
    (seed_incidents n draws).1 = n ∧
    (seed_incidents n draws).2.length = n ∧
    ∀ inc ∈ (seed_incidents n draws).2, ValidIncident inc := by
  rw [seed_incidents, seed_fold (List.range n) draws 0 []]
  refine ⟨by simp, by simp, ?_⟩
  intro inc hmem
  simp only [List.nil_append, List.mem_map, List.mem_range] at hmem
  obtain ⟨i, hi, rfl⟩ := hmem
  obtain ⟨ht, hs, hst, hr1, hr2, hlat1, hlat2, hlon1, hlon2, ho1, ho2, hi1, hi2⟩ :=
    hd i hi
  obtain ⟨hlatc1, hlatc2⟩ := round6_close (draws i).lat
  obtain ⟨hlonc1, hlonc2⟩ := round6_close (draws i).lon
  refine ⟨?_, ?_, ?_, ?_, ?_, ?_⟩
  · revert ht
    have hsub : ∀ s, s ∈ seedTypes → s ∈ incidentTypes := by decide
    exact hsub _
  · exact hs
  · exact hst
  · intro q hq
    simp only [mkSeedIncident, Option.some.injEq] at hq
    constructor <;> rw [← hq] <;> linarith
  · intro q hq
    simp only [mkSeedIncident, Option.some.injEq] at hq
    constructor <;> rw [← hq] <;> linarith
  · intro q hq
    simp only [mkSeedIncident] at hq
    rcases hc : decide ((draws i).statusChoice = "reported") with _ | _
    · rw [if_neg (of_decide_eq_false hc)] at hq
      obtain rfl := Option.some.inj hq
      positivity
    · rw [if_pos (of_decide_eq_true hc)] at hq
      exact absurd hq (by simp)

/-- A fixed draw used by the seeding witness. -/
def demoDraw : SeedDraw :=
  ⟨"theft", "low", "dispatched", "2024-01-01T00:00:00", "2024-01-01T00:30:00",
   5, 37.75, -122.40, "Central", 1234, 123456⟩

/-- Witness for C8 at n = 1 with a fixed valid draw. -/
theorem seed_incidents_spec_witness :
    (seed_incidents 1 (fun _ => demoDraw)).1 = 1 ∧
    (seed_incidents 1 (fun _ => demoDraw)).2.length = 1 ∧
    ∀ inc ∈ (seed_incidents 1 (fun _ => demoDraw)).2, ValidIncident inc :=
  seed_incidents_spec 1 (fun _ => demoDraw) (by norm_num) (by norm_num)
    (fun i _ => by
      have hvd : ValidDraw demoDraw := by
        refine ⟨?_, ?_, ?_, ?_, ?_, ?_, ?_, ?_, ?_, ?_, ?_, ?_, ?_⟩ <;>
          first
            | decide
            | norm_num [demoDraw]
      exact hvd)

end PoliceAnalytics
